import Mathlib

/-!
Shallow embedding of the PR status/iteration tracker of `src/extensions/pr-iterate.ts`
(repository `bruno-garcia/pi-config`).

The pure helpers (`parseChecks`, `formatStatus`, `buildIterationMessage`, the
regular-expression tests) are translated directly from the source.  The stateful
extension body (per-session records, the poll `update`, `triggerIteration`, the
`tool_result` handler, the `pr-iterate` command handler and the shutdown handler)
is embedded as explicit state passing over a `World` holding the session table.
External subprocess queries (`git`, `gh`) are modelled by an `Env` record of pure
query functions, and every observable side effect (status-bar rendering, user
notification, follow-up message, external query issued) is recorded in an
`Effect` trace in the order the source performs it.
-/

namespace PrIterate

/-- Aggregate counters over the CI checks of a PR (interface `CheckStatus`). -/
structure CheckStatus where
  total : Nat
  pass : Nat
  fail : Nat
  pending : Nat
  deriving DecidableEq

/-- Repository identity (interface `RepoInfo`). -/
structure RepoInfo where
  owner : String
  name : String
  deriving DecidableEq

/-- PR snapshot produced by a query (interface `PrInfo`). -/
structure PrInfo where
  number : Nat
  title : String
  url : String
  state : String
  checks : CheckStatus
  unresolvedThreads : Nat
  deriving DecidableEq

/-- Raw check entry as read from the `statusCheckRollup` JSON array; only the
three fields `parseChecks` reads are modelled, a missing or non-string field
being `none`. -/
structure RawCheck where
  name : Option String
  conclusion : Option String
  status : Option String
  deriving DecidableEq

/-- JavaScript `toUpperCase` (computable by kernel reduction, unlike the
position-based `String.toUpper` of the core library). -/
def jsToUpper (s : String) : String := String.mk (s.data.map Char.toUpper)

/-- JavaScript `toLowerCase`. -/
def jsToLower (s : String) : String := String.mk (s.data.map Char.toLower)

/-- JavaScript `trim`. -/
def jsTrim (s : String) : String :=
  String.mk (((s.data.dropWhile Char.isWhitespace).reverse.dropWhile Char.isWhitespace).reverse)

/-- JavaScript `slice(n)` on a string (drop the first `n` characters). -/
def jsDrop (s : String) (n : Nat) : String := String.mk (s.data.drop n)

/-- One step of the `parseChecks` loop body (source lines 84-115).  JavaScript
`c.x || ""` is `Option.getD ""`. -/
def parseChecksStep (checks : CheckStatus) (c : RawCheck) : CheckStatus :=
  let conclusion := jsToUpper (c.conclusion.getD "")
  let status := jsToUpper (c.status.getD "")
  let name := c.name.getD ""
  if name = "" && conclusion = "" && status = "" then checks
  else
    let checks := { checks with total := checks.total + 1 }
    if conclusion = "SUCCESS" || conclusion = "NEUTRAL" || conclusion = "SKIPPED" then
      { checks with pass := checks.pass + 1 }
    else if conclusion = "FAILURE" || conclusion = "TIMED_OUT" || conclusion = "CANCELLED" ||
        conclusion = "ACTION_REQUIRED" then
      { checks with fail := checks.fail + 1 }
    else if status = "IN_PROGRESS" || status = "QUEUED" || status = "PENDING" ||
        status = "WAITING" then
      { checks with pending := checks.pending + 1 }
    else if status = "COMPLETED" then
      { checks with pass := checks.pass + 1 }
    else
      { checks with pending := checks.pending + 1 }

/-- Translation of `parseChecks` (source lines 82-117). -/
def parseChecks (statusCheckRollup : List RawCheck) : CheckStatus :=
  statusCheckRollup.foldl parseChecksStep ⟨0, 0, 0, 0⟩

/-- Classification outcome of a single check entry, as the spec describes it. -/
inductive CheckClass where
  | pass
  | fail
  | pending
  | dropped
  deriving DecidableEq

/-- Modelled from the spec (section 4.1): classification rule for a single
check entry, written from the spec text in order to be compared with the
source-derived `parseChecks`: conclusion first (`SUCCESS|NEUTRAL|SKIPPED` pass,
`FAILURE|TIMED_OUT|CANCELLED|ACTION_REQUIRED` fail), else status
(`IN_PROGRESS|QUEUED|PENDING|WAITING` pending, `COMPLETED` with no conclusion
pass, anything else pending); entries with no name, no status and no
conclusion are dropped. -/
def classifySpec (c : RawCheck) : CheckClass :=
  let conclusion := jsToUpper (c.conclusion.getD "")
  let status := jsToUpper (c.status.getD "")
  let name := c.name.getD ""
  if name = "" && conclusion = "" && status = "" then .dropped
  else if conclusion = "SUCCESS" || conclusion = "NEUTRAL" || conclusion = "SKIPPED" then .pass
  else if conclusion = "FAILURE" || conclusion = "TIMED_OUT" || conclusion = "CANCELLED" ||
      conclusion = "ACTION_REQUIRED" then .fail
  else if status = "IN_PROGRESS" || status = "QUEUED" || status = "PENDING" ||
      status = "WAITING" then .pending
  else if status = "COMPLETED" then .pass
  else .pending

/-- Counter contribution of one spec-classified entry. -/
def unitFor : CheckClass → CheckStatus
  | .pass => ⟨1, 1, 0, 0⟩
  | .fail => ⟨1, 0, 1, 0⟩
  | .pending => ⟨1, 0, 0, 1⟩
  | .dropped => ⟨0, 0, 0, 0⟩

/-- Componentwise addition of counter records. -/
def addCS (a b : CheckStatus) : CheckStatus :=
  ⟨a.total + b.total, a.pass + b.pass, a.fail + b.fail, a.pending + b.pending⟩

/-- Modelled from the spec: the aggregate is the componentwise sum of the
per-entry classifications. -/
def specAggregate : List RawCheck → CheckStatus
  | [] => ⟨0, 0, 0, 0⟩
  | c :: l => addCS (unitFor (classifySpec c)) (specAggregate l)

/-! ## String scanning (the regular expressions of the source) -/

/-- JavaScript `\w` (ASCII word character). -/
def isWordChar (c : Char) : Bool := c.isAlphanum || c = '_'

/-- Consume a literal from the front of the input. -/
def matchLit : List Char → List Char → Option (List Char)
  | [], l => some l
  | _ :: _, [] => none
  | c :: cs, d :: ds => if c = d then matchLit cs ds else none

/-- String begins-with test, by literal consumption. -/
def strStarts (s pat : String) : Bool := (matchLit pat.data s.data).isSome

/-- Consume `\s+` (one or more whitespace characters), greedily. -/
def skipWs1 : List Char → Option (List Char)
  | [] => none
  | c :: cs => if c.isWhitespace then some (cs.dropWhile Char.isWhitespace) else none

/-- Try a position-local boolean matcher at every start position, remembering
the previous character for word-boundary tests. -/
def scanTest (p : Option Char → List Char → Bool) : Option Char → List Char → Bool
  | prev, [] => p prev []
  | prev, c :: rest => p prev (c :: rest) || scanTest p (some c) rest

/-- Try a position-local matcher at every start position, returning the first
success (leftmost match, as JavaScript `String.match`). -/
def scanFirst {α : Type} (p : Option Char → List Char → Option α) :
    Option Char → List Char → Option α
  | prev, [] => p prev []
  | prev, c :: rest =>
    match p prev (c :: rest) with
    | some r => some r
    | none => scanFirst p (some c) rest

/-- Match `\bgit\s+push\b` at one position. -/
def pushAt (prev : Option Char) (l : List Char) : Bool :=
  (match prev with | none => true | some c => !(isWordChar c)) &&
  (match matchLit "git".toList l with
   | none => false
   | some r1 =>
     match skipWs1 r1 with
     | none => false
     | some r2 =>
       match matchLit "push".toList r2 with
       | none => false
       | some r3 => match r3 with | [] => true | c :: _ => !(isWordChar c))

/-- `PUSH_RE.test` (source line 437). -/
def testPush (s : String) : Bool := scanTest pushAt none s.toList

/-- Match `\bgh\s+pr\s+create\b` at one position. -/
def prCreateAt (prev : Option Char) (l : List Char) : Bool :=
  (match prev with | none => true | some c => !(isWordChar c)) &&
  (match matchLit "gh".toList l with
   | none => false
   | some r1 =>
     match skipWs1 r1 with
     | none => false
     | some r2 =>
       match matchLit "pr".toList r2 with
       | none => false
       | some r3 =>
         match skipWs1 r3 with
         | none => false
         | some r4 =>
           match matchLit "create".toList r4 with
           | none => false
           | some r5 => match r5 with | [] => true | c :: _ => !(isWordChar c))

/-- `PR_CREATE_RE.test` (source line 438). -/
def testPrCreate (s : String) : Bool := scanTest prCreateAt none s.toList

/-- Decimal value of a digit run (JavaScript `parseInt` on the captured `\d+`). -/
def digitsToNat (l : List Char) : Nat :=
  l.foldl (fun acc c => acc * 10 + (c.toNat - 48)) 0

/-- Result of matching `PR_URL_RE`: captured `owner/name` and PR number. -/
structure PrUrlMatch where
  repo : String
  number : Nat
  deriving DecidableEq

/-- Match `https://github.com/([^/]+/[^/]+)/pull/(\d+)` at one position.  The
character classes exclude their own delimiters, so greedy `takeWhile` agrees
with the backtracking regex semantics. -/
def prUrlAt (_prev : Option Char) (l : List Char) : Option PrUrlMatch :=
  match matchLit "https://github.com/".toList l with
  | none => none
  | some r1 =>
    let seg1 := r1.takeWhile (fun c => c ≠ '/')
    let r2 := r1.dropWhile (fun c => c ≠ '/')
    if seg1 = [] then none
    else
      match r2 with
      | '/' :: r3 =>
        let seg2 := r3.takeWhile (fun c => c ≠ '/')
        let r4 := r3.dropWhile (fun c => c ≠ '/')
        if seg2 = [] then none
        else
          match matchLit "/pull/".toList r4 with
          | none => none
          | some r5 =>
            let digits := r5.takeWhile Char.isDigit
            if digits = [] then none
            else some ⟨String.mk (seg1 ++ '/' :: seg2), digitsToNat digits⟩
      | _ => none

/-- First match of `PR_URL_RE` in a text (source line 207), or `none`. -/
def prUrlFirst (s : String) : Option PrUrlMatch := scanFirst prUrlAt none s.toList

/-- Translation of `parsePrUrl` (source lines 209-212). -/
def parsePrUrl (text : String) : Option PrUrlMatch := prUrlFirst text

/-- Character class `[^\s;&|]` of the `cd` extraction regex. -/
def isDirChar (c : Char) : Bool :=
  !(c.isWhitespace || c = ';' || c = '&' || c = '|')

/-- After the captured directory: `\s*` then `&&` or `;`. -/
def cdTailOk (l : List Char) : Bool :=
  match l.dropWhile Char.isWhitespace with
  | '&' :: '&' :: _ => true
  | ';' :: _ => true
  | _ => false

/-- Match `\bcd\s+(~\/[^\s;&|]+|\/[^\s;&|]+)\s*(?:&&|;)` at one position,
returning the captured group. -/
def cdDirAt (prev : Option Char) (l : List Char) : Option String :=
  if (match prev with | none => true | some c => !(isWordChar c)) then
    match matchLit "cd".toList l with
    | none => none
    | some r1 =>
      match skipWs1 r1 with
      | none => none
      | some r2 =>
        match r2 with
        | '~' :: '/' :: rest =>
          let body := rest.takeWhile isDirChar
          let after := rest.dropWhile isDirChar
          if body = [] then none
          else if cdTailOk after then some (String.mk ('~' :: '/' :: body)) else none
        | '/' :: rest =>
          let body := rest.takeWhile isDirChar
          let after := rest.dropWhile isDirChar
          if body = [] then none
          else if cdTailOk after then some (String.mk ('/' :: body)) else none
        | _ => none
  else none

/-- Translation of `extractCdDir` (source lines 451-455); `home` stands for
`process.env.HOME`, the empty string meaning unset. -/
def extractCdDir (home : String) (cmd : String) : Option String :=
  (scanFirst cdDirAt none cmd.toList).map (fun dir =>
    if strStarts dir "~" then
      (if home = "" then "~" else home) ++ jsDrop dir 1
    else dir)

/-! ## Status formatting -/

/-- Constant `STATUS_KEY` (source line 280). -/
def STATUS_KEY : String := "pr-status"

/-- Constant `POLL_INTERVAL` in milliseconds (source line 281). -/
def POLL_INTERVAL : Nat := 30000

/-- Constant `MAX_ITERATIONS` (source line 282). -/
def MAX_ITERATIONS : Nat := 10

/-- Translation of `formatStatus` (source lines 214-238). -/
def formatStatus (pr : PrInfo) (iterLabel : Option String) : String :=
  let stateIcon :=
    if pr.state = "MERGED" then "🟣" else if pr.state = "CLOSED" then "🔴" else "🟢"
  let n := pr.number
  let parts : List String := [s!"{stateIcon} PR #{n}"]
  let parts :=
    if pr.checks.total > 0 then
      let t := pr.checks.total
      let f := pr.checks.fail
      let p := pr.checks.pending
      if pr.checks.fail > 0 then parts ++ [s!"❌ {f}/{t} failed"]
      else if pr.checks.pending > 0 then parts ++ [s!"⏳ {p}/{t} pending"]
      else parts ++ [s!"✅ {t} passed"]
    else parts
  let parts :=
    if pr.unresolvedThreads > 0 then
      let u := pr.unresolvedThreads
      parts ++ [s!"💬 {u} unresolved"]
    else parts
  let parts := match iterLabel with | some lab => parts ++ [lab] | none => parts
  let parts := parts ++ [pr.url]
  String.intercalate " · " parts

/-- Translation of `buildIterationMessage` (source lines 242-276). -/
def buildIterationMessage (n : Nat) (max : Nat) : String :=
  s!"🔄 **PR Iteration {n}/{max}** (auto-triggered after push)

**Step 1 — Watch CI**
Find the PR number: `gh pr view --json number -q .number`

Wait for all CI checks to complete. Poll every 30 seconds:
```bash
gh pr checks $PR --json name,state,conclusion
```
Keep polling until no checks have `state` of `IN_PROGRESS`, `QUEUED`, `PENDING`, or `WAITING`.

- **All checks passed** → proceed to Step 2.
- **Any check failed** → for each failed check, show `gh run view <run-id> --log-failed` and **STOP**. Do not proceed.
- **Still pending after 15 minutes** → report timeout and **STOP**.

**Step 2 — Wait for bot reviews**
After CI passes, bot reviewers (Copilot, Sentry, CodeRabbit, etc.) need time to post comments.

1. Get the last commit time: `gh pr view $PR --json commits --jq \x27.commits[-1].committedDate\x27`
2. Check Sentry status: `gh pr checks $PR --json name,state,conclusion | jq \x27[.[] | select(.name | test(\"sentry\"; \"i\"))]\x27`
   - If a Sentry check exists and is not completed → poll every 30s until done (max 10 min).
3. Wait until **at least 5 minutes** have passed since the last commit.
4. Once Sentry is done (or absent) AND 5 min have passed → proceed.

**Step 3 — Address review comments**
Read the address-review skill (check the available skills in the system prompt for the file path) and follow its Step 2 through Step 6.

If there are **no unresolved review comments** → report \"✅ CI passed, no review comments to address\" and **STOP**.

**Important rules:**
- If you commit and push changes, this extension will **automatically** trigger the next iteration. Just stop after pushing — do NOT manually loop.
- Never use `#N` in GitHub comments (auto-links to issues). Use \"Comment 1\" etc.
- Process every comment. Always reply, react (👍 valid / 👎 invalid), and resolve (if confident)."

/-! ## Per-session state and observable effects -/

/-- Host context passed to handlers: the session identifier reported by the
session manager (`none` when unavailable) and the working directory. -/
structure Ctx where
  sessionId : Option String
  cwd : String
  deriving DecidableEq

/-- Pinned PR target (field `pinnedPr`). -/
structure PinTarget where
  repo : String
  number : Nat
  deriving DecidableEq

/-- Per-session record `SessionState` (source lines 305-313). -/
structure SessionState where
  lastBranch : Option String
  lastPr : Option PrInfo
  cachedRepo : Option RepoInfo
  pinnedPr : Option PinTarget
  autoIterate : Bool
  iterationCount : Nat
  ctx : Ctx
  deriving DecidableEq

/-- External query adapter: the results of the `git`/`gh` subprocess calls,
plus `process.env.HOME`.  A failed or empty query is `none`. -/
structure Env where
  getBranch : String → Option String
  getRepoInfo : String → Option RepoInfo
  getPrForBranch : String → Option RepoInfo → Option PrInfo
  getPrByNumber : String → Nat → Option PrInfo
  home : String

/-- Observable effects, recorded in program order: status-bar writes, user
notifications, follow-up messages to the agent, and issued external queries. -/
inductive Effect where
  | setStatus (sid : String) (key : String) (val : Option String)
  | notify (sid : String) (msg : String) (level : String)
  | sendUserMessage (msg : String)
  | qGetBranch (cwd : String)
  | qGetRepoInfo (cwd : String)
  | qGetPrForBranch (cwd : String)
  | qGetPrByNumber (repo : String) (num : Nat)
  deriving DecidableEq

/-- Translation of `getSessionId` (source lines 318-324): the session manager
id, defaulting to the working directory. -/
def getSessionId (ctx : Ctx) : String := ctx.sessionId.getD ctx.cwd

/-- Translation of `iterateLabel` (source lines 348-352). -/
def iterateLabel (s : SessionState) : Option String :=
  if !s.autoIterate then none
  else if s.iterationCount = 0 then some "🔄 auto"
  else
    let n := s.iterationCount
    some s!"🔄 {n}/{MAX_ITERATIONS}"

/-- Translation of `showStatus` (source lines 354-357): a fresh snapshot
replaces `lastPr`, a missing one retains it; then the status bar is rendered
from `lastPr`. -/
def showStatus (s : SessionState) (pr : Option PrInfo) : SessionState × List Effect :=
  let s1 := match pr with | some p => { s with lastPr := some p } | none => s
  (s1, [Effect.setStatus (getSessionId s1.ctx) STATUS_KEY
         (s1.lastPr.map (fun p => formatStatus p (iterateLabel s1)))])

/-- Translation of `refreshStatus` (source lines 359-363); no state change. -/
def refreshStatus (s : SessionState) : List Effect :=
  match s.lastPr with
  | some pr =>
    [Effect.setStatus (getSessionId s.ctx) STATUS_KEY (some (formatStatus pr (iterateLabel s)))]
  | none => []

/-- Translation of `clearStatus` (source lines 365-368). -/
def clearStatus (s : SessionState) : SessionState × List Effect :=
  ({ s with lastPr := none }, [Effect.setStatus (getSessionId s.ctx) STATUS_KEY none])

/-- The `if (!s.cachedRepo) s.cachedRepo = getRepoInfo(cwd)` idiom shared by
both branches of `update`: resolve the cached repository identity, returning
the new cache value and the queries issued. -/
def repoResolve (env : Env) (cwd : String) (cached : Option RepoInfo) :
    Option RepoInfo × List Effect :=
  match cached with
  | none => (env.getRepoInfo cwd, [Effect.qGetRepoInfo cwd])
  | some r => (some r, [])

/-- JavaScript truthiness test `branch && branch !== "HEAD"` (equivalently the
negation of `!branch || branch === "HEAD"`): an empty or missing branch, or a
detached `HEAD`, is unusable. -/
def usableBranch : Option String → Bool
  | none => false
  | some b => !(b = "" || b = "HEAD")

/-- Translation of `update` (source lines 379-414): one poll tick for one
session. -/
def update (env : Env) (s : SessionState) : SessionState × List Effect :=
  let cwd := s.ctx.cwd
  match s.pinnedPr with
  | some pin =>
    let pr := env.getPrByNumber pin.repo pin.number
    let (s1, e1) := showStatus s pr
    let effs := Effect.qGetPrByNumber pin.repo pin.number :: e1 ++ [Effect.qGetBranch cwd]
    let branch := env.getBranch cwd
    if usableBranch branch then
      let (cache, eRepo) := repoResolve env cwd s1.cachedRepo
      let s2 := { s1 with cachedRepo := cache }
      let branchPr := env.getPrForBranch cwd s2.cachedRepo
      let effs := effs ++ eRepo ++ [Effect.qGetPrForBranch cwd]
      match branchPr with
      | some bp =>
        if bp.state = "OPEN" then
          let s3 := { s2 with pinnedPr := none }
          let (s4, e4) := showStatus s3 (some bp)
          (s4, effs ++ e4)
        else (s2, effs)
      | none => (s2, effs)
    else (s1, effs)
  | none =>
    let branch := env.getBranch cwd
    let (s1, e1) :=
      if branch ≠ s.lastBranch then
        let (sc, ec) := clearStatus { s with lastBranch := branch }
        ({ sc with cachedRepo := none }, ec)
      else (s, [])
    if !(usableBranch branch) then
      let (s2, e2) := clearStatus s1
      (s2, Effect.qGetBranch cwd :: e1 ++ e2)
    else
      let (cache, eRepo) := repoResolve env cwd s1.cachedRepo
      let s2 := { s1 with cachedRepo := cache }
      let bp := env.getPrForBranch cwd s2.cachedRepo
      let (s3, e3) := showStatus s2 bp
      (s3, Effect.qGetBranch cwd :: e1 ++ eRepo ++ [Effect.qGetPrForBranch cwd] ++ e3)

/-- Translation of `triggerIteration` (source lines 418-435). -/
def triggerIteration (s : SessionState) : SessionState × List Effect :=
  if !s.autoIterate then (s, [])
  else if s.lastPr.isNone && s.pinnedPr.isNone then (s, [])
  else if s.iterationCount ≥ MAX_ITERATIONS then
    let s1 := { s with autoIterate := false }
    (s1, Effect.notify (getSessionId s.ctx)
          s!"PR iterate: max iterations ({MAX_ITERATIONS}) reached — disabling" "warning"
        :: refreshStatus s1)
  else
    let s1 := { s with iterationCount := s.iterationCount + 1 }
    (s1, refreshStatus s1 ++
      [Effect.sendUserMessage (buildIterationMessage s1.iterationCount MAX_ITERATIONS)])

/-! ## The session table and the event handlers -/

/-- Lookup in the session table (JavaScript `Map.get`). -/
def lookupSession : List (String × SessionState) → String → Option SessionState
  | [], _ => none
  | (k, v) :: rest, id => if k = id then some v else lookupSession rest id

/-- Overwrite in the session table (JavaScript `Map.set` on a present key keeps
the position; on an absent key it appends). -/
def setSessionList : List (String × SessionState) → String → SessionState →
    List (String × SessionState)
  | [], id, s => [(id, s)]
  | (k, v) :: rest, id, s =>
    if k = id then (k, s) :: rest else (k, v) :: setSessionList rest id s

/-- Remove from the session table (JavaScript `Map.delete`). -/
def eraseSessionList : List (String × SessionState) → String →
    List (String × SessionState)
  | [], _ => []
  | (k, v) :: rest, id => if k = id then rest else (k, v) :: eraseSessionList rest id

/-- Module-level mutable state of the extension: the session table and the
shared poll timer flag. -/
structure World where
  sessions : List (String × SessionState)
  timer : Bool
  deriving DecidableEq

/-- Translation of `getOrCreate` (source lines 326-344): look the session up,
creating a fresh record on a miss, and always refresh the stored context. -/
def getOrCreate (ctx : Ctx) (w : World) : SessionState × World :=
  let id := getSessionId ctx
  match lookupSession w.sessions id with
  | some s =>
    let s1 := { s with ctx := ctx }
    (s1, { w with sessions := setSessionList w.sessions id s1 })
  | none =>
    let s1 : SessionState :=
      { lastBranch := none, lastPr := none, cachedRepo := none, pinnedPr := none,
        autoIterate := true, iterationCount := 0, ctx := ctx }
    (s1, { w with sessions := w.sessions ++ [(id, s1)] })

/-- A content block of a tool result; `text` is `none` when the `text` field is
missing or not a string. -/
structure ContentBlock where
  type : String
  text : Option String
  deriving DecidableEq

/-- Translation of `getResultText` (source lines 441-448). -/
def getResultText (content : List ContentBlock) : String :=
  String.intercalate "\n"
    (content.filterMap (fun c => if c.type = "text" then c.text else none))

/-- A `tool_result` event: tool name, the bash command, the result content
blocks, and the error flag. -/
structure ToolEvent where
  toolName : String
  command : String
  content : List ContentBlock
  isErr : Bool
  deriving DecidableEq

/-- Body of the `tool_result` handler acting on the session record (source
lines 465-500): auto-pin from the command text and output, or, for a `git
push` with a `cd` prefix into another directory, from that directory; when
already pinned, refresh the pinned status. -/
def toolResultBody (env : Env) (ev : ToolEvent) (ctx : Ctx) (s : SessionState) :
    SessionState × List Effect :=
  match s.pinnedPr with
  | none =>
    let output := getResultText ev.content
    let allText := ev.command ++ "\n" ++ output
    match prUrlFirst allText with
    | some pm =>
      let s1 := { s with pinnedPr := some ⟨pm.repo, pm.number⟩ }
      let pr := env.getPrByNumber pm.repo pm.number
      let (s2, e2) := showStatus s1 pr
      (s2, Effect.qGetPrByNumber pm.repo pm.number :: e2)
    | none =>
      if testPush ev.command then
        match extractCdDir env.home ev.command with
        | some dir =>
          if dir ≠ ctx.cwd then
            let repo := env.getRepoInfo dir
            let eRepo := [Effect.qGetRepoInfo dir]
            match repo with
            | some r =>
              let pr := env.getPrForBranch dir (some r)
              let ePr := [Effect.qGetPrForBranch dir]
              match pr with
              | some p =>
                if p.url ≠ "" then
                  match parsePrUrl p.url with
                  | some parsed =>
                    let s1 := { s with pinnedPr := some ⟨parsed.repo, parsed.number⟩ }
                    let (s2, e2) := showStatus s1 (some p)
                    (s2, eRepo ++ ePr ++ e2)
                  | none => (s, eRepo ++ ePr)
                else (s, eRepo ++ ePr)
              | none => (s, eRepo ++ ePr)
            | none => (s, eRepo)
          else (s, [])
        | none => (s, [])
      else (s, [])
  | some pin =>
    let pr := env.getPrByNumber pin.repo pin.number
    let (s1, e1) := showStatus s pr
    (s1, Effect.qGetPrByNumber pin.repo pin.number :: e1)

/-- Translation of the `tool_result` handler (source lines 459-503) up to the
point where `setTimeout(() => triggerIteration(s), 500)` is registered.  The
third component is the scheduled deferred trigger: the session id and the
record captured by the closure (`none` when the handler returned early and
scheduled nothing). -/
def toolResultHandler (env : Env) (ev : ToolEvent) (ctx : Ctx) (w : World) :
    World × List Effect × Option (String × SessionState) :=
  if ev.toolName ≠ "bash" then (w, [], none)
  else if !(testPush ev.command || testPrCreate ev.command) then (w, [], none)
  else if ev.isErr then (w, [], none)
  else
    let id := getSessionId ctx
    let (s, w1) := getOrCreate ctx w
    let (s2, effs) := toolResultBody env ev ctx s
    ({ w1 with sessions := setSessionList w1.sessions id s2 }, effs, some (id, s2))

/-- The deferred `setTimeout` callback firing (source line 502).  The closure
holds a reference to the session record; while the session is live the record
reached through the table is that same reference, so mutations land in the
table.  After `session_shutdown` deletes the entry, the callback still runs
`triggerIteration` on the orphaned captured record: its effects are still
emitted, and the table is unchanged. -/
def fireDeferred (w : World) (id : String) (captured : SessionState) :
    World × List Effect :=
  match lookupSession w.sessions id with
  | some s =>
    let (s1, effs) := triggerIteration s
    ({ w with sessions := setSessionList w.sessions id s1 }, effs)
  | none =>
    let (_, effs) := triggerIteration captured
    (w, effs)

/-- A successful push-like `tool_result` followed by its deferred trigger
firing with no intervening event: the handler body, then the scheduled
`triggerIteration` on the (still live) session. -/
def pushStep (env : Env) (ev : ToolEvent) (ctx : Ctx) (w : World) :
    World × List Effect :=
  match toolResultHandler env ev ctx w with
  | (w1, e1, none) => (w1, e1)
  | (w1, e1, some (id, captured)) =>
    let (w2, e2) := fireDeferred w1 id captured
    (w2, e1 ++ e2)

/-- Translation of the `session_shutdown` handler (source lines 528-535). -/
def sessionShutdown (ctx : Ctx) (w : World) : World :=
  let id := getSessionId ctx
  let sessions := eraseSessionList w.sessions id
  { sessions := sessions, timer := if sessions.isEmpty then false else w.timer }

/-- Translation of the poll timer tick (source lines 372-376): every live
session is updated in table order. -/
def pollTick (env : Env) (w : World) : World × List Effect :=
  let results := w.sessions.map (fun kv => (kv.1, update env kv.2))
  ({ w with sessions := results.map (fun kv => (kv.1, kv.2.1)) },
   (results.map (fun kv => kv.2.2)).flatten)

/-- Translation of the `pr-iterate` command handler (source lines 554-605). -/
def prIterateCommand (env : Env) (args : String) (ctx : Ctx) (w : World) :
    World × List Effect :=
  let id := getSessionId ctx
  let (s, w1) := getOrCreate ctx w
  let trimmed := jsToLower (jsTrim args)
  if trimmed = "on" then
    let s1 := { s with autoIterate := true, iterationCount := 0 }
    ({ w1 with sessions := setSessionList w1.sessions id s1 },
     refreshStatus s1 ++ [Effect.notify (getSessionId ctx) "PR auto-iterate: ON" "info"])
  else if trimmed = "off" then
    let s1 := { s with autoIterate := false }
    ({ w1 with sessions := setSessionList w1.sessions id s1 },
     refreshStatus s1 ++ [Effect.notify (getSessionId ctx) "PR auto-iterate: OFF" "info"])
  else if trimmed = "run" then
    let wasEnabled := s.autoIterate
    let s1 := { s with autoIterate := true }
    let (s2, e2) := triggerIteration s1
    let s3 := if !wasEnabled then { s2 with autoIterate := false } else s2
    ({ w1 with sessions := setSessionList w1.sessions id s3 }, e2)
  else if trimmed = "reset" then
    let s1 := { s with iterationCount := 0 }
    ({ w1 with sessions := setSessionList w1.sessions id s1 },
     refreshStatus s1 ++ [Effect.notify (getSessionId ctx) "PR iterate: counter reset to 0" "info"])
  else if trimmed = "status" then
    let prLabel :=
      match s.lastPr with
      | some pr => let n := pr.number; s!"PR #{n}"
      | none => "no PR detected"
    let onOff := if s.autoIterate then "ON" else "OFF"
    let n := s.iterationCount
    ({ w1 with sessions := setSessionList w1.sessions id s },
     [Effect.notify (getSessionId ctx)
       s!"Auto-iterate: {onOff} · Iterations: {n}/{MAX_ITERATIONS} · {prLabel}" "info"])
  else if strStarts trimmed "pin" then
    let urlPart := jsTrim (jsDrop trimmed 3)
    match parsePrUrl urlPart with
    | none =>
      ({ w1 with sessions := setSessionList w1.sessions id s },
       [Effect.notify (getSessionId ctx) "Usage: /pr-iterate pin <github-pr-url>" "warning"])
    | some parsed =>
      let s1 := { s with pinnedPr := some ⟨parsed.repo, parsed.number⟩ }
      let pr := env.getPrByNumber parsed.repo parsed.number
      let (s2, e2) := showStatus s1 pr
      let n := parsed.number
      ({ w1 with sessions := setSessionList w1.sessions id s2 },
       Effect.qGetPrByNumber parsed.repo parsed.number :: e2 ++
         [Effect.notify (getSessionId ctx) s!"Pinned PR #{n}" "info"])
  else if trimmed = "unpin" then
    let s1 := { s with pinnedPr := none, lastPr := none }
    let (s2, e2) := update env s1
    ({ w1 with sessions := setSessionList w1.sessions id s2 },
     e2 ++ [Effect.notify (getSessionId ctx) "Unpinned — using branch detection" "info"])
  else
    let s1 := { s with autoIterate := !s.autoIterate }
    let s2 := if s1.autoIterate then { s1 with iterationCount := 0 } else s1
    let onOff := if s2.autoIterate then "ON" else "OFF"
    ({ w1 with sessions := setSessionList w1.sessions id s2 },
     refreshStatus s2 ++ [Effect.notify (getSessionId ctx) s!"PR auto-iterate: {onOff}" "info"])

/-! ## Lemmas about check classification -/

/-- One loop step of `parseChecks` adds exactly the counter contribution of the
spec-side classification of the entry. -/
lemma parseChecksStep_eq (acc : CheckStatus) (c : RawCheck) :
    parseChecksStep acc c = addCS acc (unitFor (classifySpec c)) := by
  simp only [parseChecksStep, classifySpec]
  split_ifs <;> simp [addCS, unitFor]

/-- Componentwise addition of counters is associative. -/
lemma addCS_assoc (a b c : CheckStatus) : addCS (addCS a b) c = addCS a (addCS b c) := by
  simp [addCS, Nat.add_assoc]

/-- Zero counters are a left unit for counter addition. -/
lemma addCS_zero_left (a : CheckStatus) : addCS ⟨0, 0, 0, 0⟩ a = a := by
  simp [addCS]

/-- The `parseChecks` fold, started from any accumulator, adds the spec-side
aggregate of the list. -/
lemma parseChecks_go (l : List RawCheck) :
    ∀ acc : CheckStatus, l.foldl parseChecksStep acc = addCS acc (specAggregate l) := by
  induction l with
  | nil => intro acc; simp [specAggregate, addCS]
  | cons c l ih =>
    intro acc
    simp only [List.foldl_cons, specAggregate]
    rw [ih, parseChecksStep_eq, addCS_assoc]

/-- The spec-side aggregate satisfies the counter sum invariant. -/
lemma specAggregate_sum (l : List RawCheck) :
    (specAggregate l).pass + (specAggregate l).fail + (specAggregate l).pending =
      (specAggregate l).total := by
  induction l with
  | nil => simp [specAggregate]
  | cons c l ih =>
    simp only [specAggregate, addCS]
    cases classifySpec c <;> simp [unitFor] <;> omega

/-- A loop step leaves the accumulator unchanged exactly on a dropped (ghost)
entry. -/
lemma parseChecksStep_fix_iff (acc : CheckStatus) (c : RawCheck) :
    parseChecksStep acc c = acc ↔ classifySpec c = CheckClass.dropped := by
  constructor
  · intro h
    cases hc : classifySpec c
    case dropped => rfl
    all_goals
      rw [parseChecksStep_eq, hc] at h
      have htot := congrArg CheckStatus.total h
      simp [addCS, unitFor] at htot
  · intro h
    rw [parseChecksStep_eq, h]
    simp [addCS, unitFor]

/-! ## Claim theorems: check classification -/

/-- Claim C6: `parseChecks` drops entries having no name, no conclusion and no
status, and classifies every remaining entry by conclusion first
(`SUCCESS`/`NEUTRAL`/`SKIPPED` pass; `FAILURE`/`TIMED_OUT`/`CANCELLED`/
`ACTION_REQUIRED` fail), otherwise by status (`IN_PROGRESS`/`QUEUED`/
`PENDING`/`WAITING` pending; `COMPLETED` with no conclusion pass; anything
else pending): formally, `parseChecks` computes exactly the aggregate of the
spec-worded per-entry classifier `classifySpec`, and on the concrete input
`[{conclusion: SUCCESS}, {conclusion: FAILURE}, {status: IN_PROGRESS}, {}]` it
returns `{total := 3, pass := 1, fail := 1, pending := 1}`. -/
theorem C6_check_classification :
    (∀ l : List RawCheck, parseChecks l = specAggregate l) ∧
    parseChecks
      [⟨none, some "SUCCESS", none⟩, ⟨none, some "FAILURE", none⟩,
       ⟨none, none, some "IN_PROGRESS"⟩, ⟨none, none, none⟩] =
      ⟨3, 1, 1, 1⟩ := by
  constructor
  · intro l
    rw [parseChecks, parseChecks_go, addCS_zero_left]
  · decide

/-- Claim C9: for every input list, the counters returned by `parseChecks`
satisfy `pass + fail + pending = total`; moreover an entry is excluded from
all four counters (the loop step is the identity on the accumulator) exactly
when it has no name, no conclusion and no status, i.e. exactly when the
classifier drops it. -/
theorem C9_counter_sum_invariant :
    (∀ l : List RawCheck,
      (parseChecks l).pass + (parseChecks l).fail + (parseChecks l).pending =
        (parseChecks l).total) ∧
    (∀ (acc : CheckStatus) (c : RawCheck),
      parseChecksStep acc c = acc ↔ classifySpec c = CheckClass.dropped) := by
  constructor
  · intro l
    rw [parseChecks, parseChecks_go, addCS_zero_left]
    exact specAggregate_sum l
  · exact parseChecksStep_fix_iff

/-! ## Lemmas and claim theorems about the poll tick -/

/-- Rendering a snapshot only ever touches the `lastPr` field. -/
lemma showStatus_keep (s : SessionState) (pr : Option PrInfo) :
    (showStatus s pr).1.autoIterate = s.autoIterate ∧
    (showStatus s pr).1.iterationCount = s.iterationCount ∧
    (showStatus s pr).1.ctx = s.ctx ∧
    (showStatus s pr).1.pinnedPr = s.pinnedPr ∧
    (showStatus s pr).1.lastBranch = s.lastBranch ∧
    (showStatus s pr).1.cachedRepo = s.cachedRepo := by
  cases pr <;> simp [showStatus]

/-- The poll tick never changes the auto-iterate flag, the iteration counter
or the stored context of a session. -/
lemma update_fields (env : Env) (s : SessionState) :
    (update env s).1.autoIterate = s.autoIterate ∧
    (update env s).1.iterationCount = s.iterationCount ∧
    (update env s).1.ctx = s.ctx := by
  refine ⟨?_, ?_, ?_⟩ <;>
  · unfold update
    cases hp : s.pinnedPr <;> simp only [hp] <;> (repeat' split) <;>
      simp_all [showStatus, clearStatus, repoResolve] <;>
      (repeat' split) <;> simp_all

/-- Claim C3: on a poll tick of an unpinned session whose queried branch
differs from the stored `lastBranch`, the status is cleared (`lastPr` reset,
status-bar value `none`) immediately after the branch query and before the PR
query for the new branch is issued, and nothing rendered afterwards on that
tick can be the old PR's status: the full effect trace is computed under those
hypotheses, for a usable and for an unusable new branch. -/
theorem C3_branch_change_clears (env : Env) (s : SessionState)
    (hpin : s.pinnedPr = none)
    (hch : env.getBranch s.ctx.cwd ≠ s.lastBranch) :
    if usableBranch (env.getBranch s.ctx.cwd) then
      update env s =
        ({ s with lastBranch := env.getBranch s.ctx.cwd,
                  cachedRepo := env.getRepoInfo s.ctx.cwd,
                  lastPr := env.getPrForBranch s.ctx.cwd (env.getRepoInfo s.ctx.cwd) },
         [Effect.qGetBranch s.ctx.cwd,
          Effect.setStatus (getSessionId s.ctx) STATUS_KEY none,
          Effect.qGetRepoInfo s.ctx.cwd,
          Effect.qGetPrForBranch s.ctx.cwd,
          Effect.setStatus (getSessionId s.ctx) STATUS_KEY
            ((env.getPrForBranch s.ctx.cwd (env.getRepoInfo s.ctx.cwd)).map
              (fun p => formatStatus p (iterateLabel s)))])
    else
      update env s =
        ({ s with lastBranch := env.getBranch s.ctx.cwd,
                  cachedRepo := none, lastPr := none },
         [Effect.qGetBranch s.ctx.cwd,
          Effect.setStatus (getSessionId s.ctx) STATUS_KEY none,
          Effect.setStatus (getSessionId s.ctx) STATUS_KEY none]) := by
  by_cases hu : usableBranch (env.getBranch s.ctx.cwd)
  · rw [if_pos hu]
    unfold update
    rw [hpin]
    simp only [if_pos hch, hu]
    cases hq : env.getPrForBranch s.ctx.cwd (env.getRepoInfo s.ctx.cwd) <;>
      simp [clearStatus, showStatus, repoResolve, iterateLabel, hq]
  · rw [if_neg hu]
    unfold update
    rw [hpin]
    simp only [if_pos hch]
    simp [clearStatus, hu]


/-- Status-bar payload of an effect, if it is a status write. -/
def statusPayload : Effect → Option (Option String)
  | .setStatus _ _ v => some v
  | _ => none

/-- The status-bar content displayed once a trace has run: the payload of its
last status write. -/
def lastSetStatus (l : List Effect) : Option (Option String) :=
  (l.filterMap statusPayload).getLast?

/-- Follow-up messages sent to the agent in a trace. -/
def sentMessages (l : List Effect) : List String :=
  l.filterMap (fun e => match e with | .sendUserMessage m => some m | _ => none)

/-- Closed form of one unpinned poll tick on a usable branch: the new cache,
the new `lastPr` (the fresh query result, else the retained snapshot if the
branch did not change), and the finally rendered status. -/
lemma update_unpinned_usable (env : Env) (s : SessionState) (b : String)
    (hpin : s.pinnedPr = none)
    (hb : env.getBranch s.ctx.cwd = some b)
    (hus : usableBranch (some b) = true) :
    (update env s).1 =
      { s with lastBranch := some b,
               cachedRepo := (repoResolve env s.ctx.cwd
                 (if some b = s.lastBranch then s.cachedRepo else none)).1,
               lastPr := match env.getPrForBranch s.ctx.cwd
                   ((repoResolve env s.ctx.cwd
                     (if some b = s.lastBranch then s.cachedRepo else none)).1) with
                 | some p => some p
                 | none => if some b = s.lastBranch then s.lastPr else none } ∧
    lastSetStatus (update env s).2 =
      some ((match env.getPrForBranch s.ctx.cwd
               ((repoResolve env s.ctx.cwd
                 (if some b = s.lastBranch then s.cachedRepo else none)).1) with
             | some p => some p
             | none => if some b = s.lastBranch then s.lastPr else none).map
            (fun p => formatStatus p (iterateLabel s))) := by
  unfold update
  simp only [hpin, hb]
  by_cases hc : (some b : Option String) = s.lastBranch <;>
    simp_all [showStatus, clearStatus, repoResolve, lastSetStatus, statusPayload,
      iterateLabel, hus] <;>
    (repeat' split) <;> simp_all


/-- The iterate label only reads the auto-iterate flag and the counter. -/
lemma iterateLabel_congr (a b : SessionState)
    (h1 : a.autoIterate = b.autoIterate) (h2 : a.iterationCount = b.iterationCount) :
    iterateLabel a = iterateLabel b := by
  simp [iterateLabel, h1, h2]

theorem C4_transient_failure_masking (env1 env2 : Env) (s0 : SessionState)
    (b : String) (pr : PrInfo)
    (hpin : s0.pinnedPr = none)
    (hb1 : env1.getBranch s0.ctx.cwd = some b)
    (hus : usableBranch (some b) = true)
    (hsnap : env1.getPrForBranch s0.ctx.cwd
      ((repoResolve env1 s0.ctx.cwd
        (if some b = s0.lastBranch then s0.cachedRepo else none)).1) = some pr)
    (hb2 : env2.getBranch s0.ctx.cwd = some b)
    (hfail : env2.getPrForBranch s0.ctx.cwd
      ((repoResolve env2 s0.ctx.cwd (update env1 s0).1.cachedRepo).1) = none) :
    lastSetStatus (update env2 (update env1 s0).1).2 = lastSetStatus (update env1 s0).2 ∧
    lastSetStatus (update env2 (update env1 s0).1).2 =
      some (some (formatStatus pr (iterateLabel s0))) ∧
    (update env2 (update env1 s0).1).1.lastPr = some pr := by
  obtain ⟨h1s, h1r⟩ := update_unpinned_usable env1 s0 b hpin hb1 hus
  have hctx : (update env1 s0).1.ctx = s0.ctx := (update_fields env1 s0).2.2
  have hpin1 : (update env1 s0).1.pinnedPr = none := by rw [h1s]; exact hpin
  have hlb1 : (update env1 s0).1.lastBranch = some b := by rw [h1s]
  have hlp1 : (update env1 s0).1.lastPr = some pr := by rw [h1s]; simp [hsnap]
  have hb2a : env2.getBranch (update env1 s0).1.ctx.cwd = some b := by rw [hctx]; exact hb2
  obtain ⟨h2s, h2r⟩ := update_unpinned_usable env2 (update env1 s0).1 b hpin1 hb2a hus
  rw [hctx, hlb1] at h2s h2r
  simp only [if_pos rfl, if_true] at h2s h2r
  rw [hfail] at h2s h2r
  have hlab : iterateLabel (update env1 s0).1 = iterateLabel s0 :=
    iterateLabel_congr _ _ (update_fields env1 s0).1 (update_fields env1 s0).2.1
  rw [hsnap] at h1r
  rw [hlp1, hlab] at h2r
  refine ⟨?_, ?_, ?_⟩
  · rw [h2r, h1r]
  · rw [h2r]
    simp
  · rw [h2s]
    simp [hlp1]


theorem C5_pin_precedence (env : Env) (s : SessionState) (pin : PinTarget)
    (ppr bpr : PrInfo) (b : String)
    (hpin : s.pinnedPr = some pin)
    (hppr : env.getPrByNumber pin.repo pin.number = some ppr)
    (hb : env.getBranch s.ctx.cwd = some b)
    (hus : usableBranch (some b) = true)
    (hbq : env.getPrForBranch s.ctx.cwd
      ((repoResolve env s.ctx.cwd s.cachedRepo).1) = some bpr)
    (hopen : bpr.state = "OPEN") :
    (update env s).1.pinnedPr = none ∧
    (update env s).1.lastPr = some bpr ∧
    (update env s).2 =
      [Effect.qGetPrByNumber pin.repo pin.number,
       Effect.setStatus (getSessionId s.ctx) STATUS_KEY
         (some (formatStatus ppr (iterateLabel s))),
       Effect.qGetBranch s.ctx.cwd] ++
      (repoResolve env s.ctx.cwd s.cachedRepo).2 ++
      [Effect.qGetPrForBranch s.ctx.cwd,
       Effect.setStatus (getSessionId s.ctx) STATUS_KEY
         (some (formatStatus bpr (iterateLabel s)))] := by
  unfold update
  simp only [hpin]
  cases hcr : s.cachedRepo <;>
    simp_all [showStatus, repoResolve, iterateLabel, hppr, hb, hus, hbq, hopen]


/-! ## Lemmas about the iteration trigger and the session table -/

/-- A refresh of the status bar never sends a follow-up message. -/
lemma sendUserMessage_not_in_refresh (s : SessionState) (m : String) :
    Effect.sendUserMessage m ∉ refreshStatus s := by
  cases h : s.lastPr <;> simp [refreshStatus, h]

/-- A refresh of the status bar never notifies. -/
lemma notify_not_in_refresh (s : SessionState) (sid m lvl : String) :
    Effect.notify sid m lvl ∉ refreshStatus s := by
  cases h : s.lastPr <;> simp [refreshStatus, h]

/-- With auto-iteration off the trigger is a no-op. -/
lemma trigger_skip_noauto (s : SessionState) (h : s.autoIterate = false) :
    triggerIteration s = (s, []) := by
  unfold triggerIteration
  simp [h]

/-- With no PR known and no pin the trigger is a no-op. -/
lemma trigger_skip_nopr (s : SessionState) (h1 : s.lastPr = none) (h2 : s.pinnedPr = none) :
    triggerIteration s = (s, []) := by
  unfold triggerIteration
  simp [h1, h2]

/-- At the iteration cap the trigger disables auto-iteration, notifies, and
sends nothing. -/
lemma trigger_cap (s : SessionState) (hauto : s.autoIterate = true)
    (hpr : s.lastPr ≠ none ∨ s.pinnedPr ≠ none)
    (hcap : s.iterationCount ≥ MAX_ITERATIONS) :
    triggerIteration s = ({ s with autoIterate := false },
      Effect.notify (getSessionId s.ctx)
          s!"PR iterate: max iterations ({MAX_ITERATIONS}) reached — disabling" "warning"
        :: refreshStatus { s with autoIterate := false }) := by
  unfold triggerIteration
  have hb : (s.lastPr.isNone && s.pinnedPr.isNone) = false := by
    rcases hpr with h | h <;> cases hl : s.lastPr <;> cases hp : s.pinnedPr <;> simp_all
  simp [hauto, hb, hcap]

/-- Below the cap, with a PR known or pinned and auto-iteration on, the
trigger increments the counter and sends the iteration message. -/
lemma trigger_fire (s : SessionState) (hauto : s.autoIterate = true)
    (hpr : s.lastPr ≠ none ∨ s.pinnedPr ≠ none)
    (hlt : s.iterationCount < MAX_ITERATIONS) :
    triggerIteration s = ({ s with iterationCount := s.iterationCount + 1 },
      refreshStatus { s with iterationCount := s.iterationCount + 1 } ++
        [Effect.sendUserMessage (buildIterationMessage (s.iterationCount + 1) MAX_ITERATIONS)]) := by
  unfold triggerIteration
  have hb : (s.lastPr.isNone && s.pinnedPr.isNone) = false := by
    rcases hpr with h | h <;> cases hl : s.lastPr <;> cases hp : s.pinnedPr <;> simp_all
  have hno : ¬(s.iterationCount ≥ MAX_ITERATIONS) := by omega
  simp [hauto, hb, hno]

/-- The trigger never pushes the counter past the cap. -/
lemma trigger_count_le (s : SessionState) (h : s.iterationCount ≤ MAX_ITERATIONS) :
    (triggerIteration s).1.iterationCount ≤ MAX_ITERATIONS := by
  unfold triggerIteration
  split_ifs <;> simp_all <;> omega

/-- If the trigger sent a follow-up message, it incremented the counter by one
just before, the message carries the incremented count, and no other field
changed. -/
lemma trigger_send (s : SessionState) (m : String)
    (hm : Effect.sendUserMessage m ∈ (triggerIteration s).2) :
    (triggerIteration s).1.iterationCount = s.iterationCount + 1 ∧
    (triggerIteration s).1.autoIterate = s.autoIterate ∧
    (triggerIteration s).1.lastPr = s.lastPr ∧
    (triggerIteration s).1.pinnedPr = s.pinnedPr ∧
    (triggerIteration s).1.ctx = s.ctx ∧
    m = buildIterationMessage (s.iterationCount + 1) MAX_ITERATIONS := by
  unfold triggerIteration at hm ⊢
  split_ifs at hm ⊢ with h1 h2 h3
  · simp at hm
  · simp at hm
  · rcases List.mem_cons.mp hm with h | h
    · cases h
    · exact absurd h (sendUserMessage_not_in_refresh _ _)
  · rcases List.mem_append.mp hm with h | h
    · exact absurd h (sendUserMessage_not_in_refresh _ _)
    · simp at h
      simp [h]

/-- Looking up the key just written returns the written record. -/
lemma lookupSession_set_self (l : List (String × SessionState)) (id : String)
    (s : SessionState) : lookupSession (setSessionList l id s) id = some s := by
  induction l with
  | nil => simp [setSessionList, lookupSession]
  | cons kv rest ih =>
    obtain ⟨k, v⟩ := kv
    by_cases h : k = id <;> simp [setSessionList, lookupSession, h, ih]

/-- Writing one key leaves every other key unchanged. -/
lemma lookupSession_set_ne (l : List (String × SessionState)) (id k : String)
    (s : SessionState) (h : k ≠ id) :
    lookupSession (setSessionList l id s) k = lookupSession l k := by
  induction l with
  | nil => simp [setSessionList, lookupSession, Ne.symm h]
  | cons kv rest ih =>
    obtain ⟨k1, v⟩ := kv
    by_cases h1 : k1 = id <;> by_cases h2 : k1 = k <;>
      simp_all [setSessionList, lookupSession]

/-- Appending a fresh entry leaves every other key unchanged. -/
lemma lookupSession_append_ne (l : List (String × SessionState)) (id k : String)
    (s : SessionState) (h : k ≠ id) :
    lookupSession (l ++ [(id, s)]) k = lookupSession l k := by
  induction l with
  | nil => simp [lookupSession, Ne.symm h]
  | cons kv rest ih =>
    obtain ⟨k1, v⟩ := kv
    by_cases h1 : k1 = k <;> simp_all [lookupSession]

/-- Deleting one key leaves every other key unchanged. -/
lemma lookupSession_erase_ne (l : List (String × SessionState)) (id k : String)
    (h : k ≠ id) :
    lookupSession (eraseSessionList l id) k = lookupSession l k := by
  induction l with
  | nil => simp [eraseSessionList]
  | cons kv rest ih =>
    obtain ⟨k1, v⟩ := kv
    by_cases h1 : k1 = id <;> by_cases h2 : k1 = k <;>
      simp_all [eraseSessionList, lookupSession]

/-- `getOrCreate` touches only its own session id. -/
lemma getOrCreate_frame (ctx : Ctx) (w : World) (k : String)
    (h : k ≠ getSessionId ctx) :
    lookupSession (getOrCreate ctx w).2.sessions k = lookupSession w.sessions k := by
  unfold getOrCreate
  cases hl : lookupSession w.sessions (getSessionId ctx) <;>
    simp [hl, lookupSession_set_ne _ _ _ _ h, lookupSession_append_ne _ _ _ _ h]

/-- Appending an absent key makes it found. -/
lemma lookupSession_append_self (l : List (String × SessionState)) (id : String)
    (s : SessionState) (h : lookupSession l id = none) :
    lookupSession (l ++ [(id, s)]) id = some s := by
  induction l with
  | nil => simp [lookupSession]
  | cons kv rest ih =>
    obtain ⟨k1, v⟩ := kv
    by_cases h1 : k1 = id <;> simp_all [lookupSession]

/-- `getOrCreate` stores the record it returns under the session id. -/
lemma getOrCreate_self (ctx : Ctx) (w : World) :
    lookupSession (getOrCreate ctx w).2.sessions (getSessionId ctx) =
      some (getOrCreate ctx w).1 := by
  unfold getOrCreate
  cases hl : lookupSession w.sessions (getSessionId ctx)
  · simp [hl, lookupSession_append_self _ _ _ hl]
  · simp [hl, lookupSession_set_self]


/-- Closed form of the `run` sub-command: enable temporarily, trigger once,
restore the flag if it was off. -/
lemma prIterateCommand_run (env : Env) (args : String) (ctx : Ctx) (w : World)
    (harg : jsToLower (jsTrim args) = "run") :
    prIterateCommand env args ctx w =
      ({ (getOrCreate ctx w).2 with
          sessions := setSessionList (getOrCreate ctx w).2.sessions (getSessionId ctx)
            (if !(getOrCreate ctx w).1.autoIterate then
              { (triggerIteration { (getOrCreate ctx w).1 with autoIterate := true }).1 with
                  autoIterate := false }
            else (triggerIteration { (getOrCreate ctx w).1 with autoIterate := true }).1) },
       (triggerIteration { (getOrCreate ctx w).1 with autoIterate := true }).2) := by
  unfold prIterateCommand
  rw [harg]
  simp


/-- A status refresh contains no follow-up message. -/
lemma sentMessages_refresh (s : SessionState) : sentMessages (refreshStatus s) = [] := by
  cases h : s.lastPr <;> simp [sentMessages, refreshStatus, h]

/-- Messages of a concatenated trace. -/
lemma sentMessages_append (l1 l2 : List Effect) :
    sentMessages (l1 ++ l2) = sentMessages l1 ++ sentMessages l2 := by
  simp [sentMessages]

/-- A fixture environment whose queries all fail. -/
def envEmpty : Env :=
  { getBranch := fun _ => none, getRepoInfo := fun _ => none,
    getPrForBranch := fun _ _ => none, getPrByNumber := fun _ _ => none, home := "" }

/-- A fixture open PR snapshot. -/
def prOpen : PrInfo :=
  ⟨7, "Add feature", "https://github.com/o/r/pull/7", "OPEN", ⟨1, 1, 0, 0⟩, 0⟩

/-- A fixture context for session W. -/
def ctxW : Ctx := ⟨some "W", "/w"⟩

/-- A fixture session tracking an open PR with auto-iteration on and a fresh
counter. -/
def sessW : SessionState := ⟨some "main", some prOpen, none, none, true, 0, ctxW⟩

/-- Claim C10: every firing of `triggerIteration` that emits a follow-up
instruction message increments the session iteration counter by exactly one,
and the emitted message carries the incremented count — including firings
reached through the manual `run` sub-command, which therefore consume the
same `MAX_ITERATIONS` budget as push-triggered iterations. -/
theorem C10_every_send_increments :
    (∀ (s : SessionState) (m : String),
      Effect.sendUserMessage m ∈ (triggerIteration s).2 →
      (triggerIteration s).1.iterationCount = s.iterationCount + 1 ∧
      m = buildIterationMessage (s.iterationCount + 1) MAX_ITERATIONS) ∧
    (∀ (env : Env) (args : String) (ctx : Ctx) (w : World) (m : String),
      jsToLower (jsTrim args) = "run" →
      Effect.sendUserMessage m ∈ (prIterateCommand env args ctx w).2 →
      ∃ s1, lookupSession (prIterateCommand env args ctx w).1.sessions
          (getSessionId ctx) = some s1 ∧
        s1.iterationCount = (getOrCreate ctx w).1.iterationCount + 1 ∧
        m = buildIterationMessage ((getOrCreate ctx w).1.iterationCount + 1)
          MAX_ITERATIONS) := by
  constructor
  · intro s m hm
    exact ⟨(trigger_send s m hm).1, (trigger_send s m hm).2.2.2.2.2⟩
  · intro env args ctx w m harg hm
    rw [prIterateCommand_run env args ctx w harg] at hm ⊢
    have h := trigger_send _ m hm
    refine ⟨_, lookupSession_set_self _ _ _, ?_, ?_⟩
    · split <;> simpa using h.1
    · simpa using h.2.2.2.2.2

/-- Witness for C10 at a concrete session with an open PR and counter 0. -/
theorem C10_witness :
    (triggerIteration sessW).1.iterationCount = sessW.iterationCount + 1 ∧
    buildIterationMessage 1 10 =
      buildIterationMessage (sessW.iterationCount + 1) MAX_ITERATIONS :=
  C10_every_send_increments.1 sessW (buildIterationMessage 1 10) (by
    rw [trigger_fire sessW rfl (Or.inl (by decide)) (by decide)]
    simp [sessW, MAX_ITERATIONS])


/-- A fixture context for session A. -/
def ctxA : Ctx := ⟨some "A", "/a"⟩

/-- Counterexample to claim C7 as stated.  First conjunct: on a session with
no PR detected and no pin, the `run` sub-command emits no follow-up message at
all, not exactly one.  Second conjunct: on a session already at the iteration
cap with `autoIterate = true`, the `run` sub-command leaves `autoIterate =
false` behind, a persisted change. -/
theorem C7_counterexample :
    sentMessages (prIterateCommand envEmpty "run" ctxA ⟨[], true⟩).2 = [] ∧
    (lookupSession (prIterateCommand envEmpty "run" ctxA
        ⟨[("A", ⟨some "main", some prOpen, none, none, true, 10, ctxA⟩)], true⟩).1.sessions
        "A").map SessionState.autoIterate = some false := by
  constructor
  · decide
  · decide

/-- Claim C7 as amended: provided the session has a PR detected or pinned and
its iteration counter is below `MAX_ITERATIONS`, the `run` sub-command fires
exactly one iteration (one follow-up message, carrying the incremented count)
regardless of whether `autoIterate` was enabled, and the `autoIterate` flag is
restored to its prior value afterwards.  (When no PR is known nothing fires;
when the cap is reached nothing fires and `autoIterate` ends up off.) -/
theorem C7_run_amended (env : Env) (args : String) (ctx : Ctx) (w : World)
    (harg : jsToLower (jsTrim args) = "run")
    (hpr : (getOrCreate ctx w).1.lastPr ≠ none ∨ (getOrCreate ctx w).1.pinnedPr ≠ none)
    (hlt : (getOrCreate ctx w).1.iterationCount < MAX_ITERATIONS) :
    sentMessages (prIterateCommand env args ctx w).2 =
      [buildIterationMessage ((getOrCreate ctx w).1.iterationCount + 1) MAX_ITERATIONS] ∧
    ∃ s1, lookupSession (prIterateCommand env args ctx w).1.sessions
        (getSessionId ctx) = some s1 ∧
      s1.autoIterate = (getOrCreate ctx w).1.autoIterate ∧
      s1.iterationCount = (getOrCreate ctx w).1.iterationCount + 1 := by
  rw [prIterateCommand_run env args ctx w harg]
  have hfire := trigger_fire { (getOrCreate ctx w).1 with autoIterate := true } rfl
    (by simpa using hpr) (by simpa using hlt)
  rw [hfire]
  refine ⟨?_, _, lookupSession_set_self _ _ _, ?_, ?_⟩
  · rw [sentMessages_append, sentMessages_refresh]
    simp [sentMessages]
  · cases hw : (getOrCreate ctx w).1.autoIterate <;> simp [hw]
  · cases hw : (getOrCreate ctx w).1.autoIterate <;> simp [hw]


/-- The handler body never sends a follow-up message or notifies, and
preserves the auto-iterate flag, the counter, the context, and the
definedness of `lastPr` and `pinnedPr`. -/
lemma toolResultBody_keep (env : Env) (ev : ToolEvent) (ctx : Ctx) (s : SessionState) :
    (toolResultBody env ev ctx s).1.autoIterate = s.autoIterate ∧
    (toolResultBody env ev ctx s).1.iterationCount = s.iterationCount ∧
    (toolResultBody env ev ctx s).1.ctx = s.ctx ∧
    ((toolResultBody env ev ctx s).1.lastPr = none → s.lastPr = none) ∧
    ((toolResultBody env ev ctx s).1.pinnedPr = none → s.pinnedPr = none) ∧
    (∀ m, Effect.sendUserMessage m ∉ (toolResultBody env ev ctx s).2) ∧
    (∀ sid m lvl, Effect.notify sid m lvl ∉ (toolResultBody env ev ctx s).2) := by
  unfold toolResultBody
  (repeat' split) <;> simp_all [showStatus] <;> (repeat' split) <;> simp_all

/-- When one of the three guards fails, the `tool_result` handler is a no-op. -/
lemma pushStep_skip (env : Env) (ev : ToolEvent) (ctx : Ctx) (w : World)
    (h : ev.toolName ≠ "bash" ∨ (testPush ev.command || testPrCreate ev.command) = false ∨
      ev.isErr = true) :
    pushStep env ev ctx w = (w, []) := by
  unfold pushStep toolResultHandler
  rcases h with h | h | h <;> (repeat' split) <;> simp_all

/-- Closed form of a successful push-like `tool_result` followed by its
deferred trigger: the handler body runs, stores its record, and the trigger
then runs on that stored record. -/
lemma pushStep_run (env : Env) (ev : ToolEvent) (ctx : Ctx) (w : World)
    (hb : ev.toolName = "bash")
    (hp : (testPush ev.command || testPrCreate ev.command) = true)
    (he : ev.isErr = false) :
    pushStep env ev ctx w =
      ({ (getOrCreate ctx w).2 with
          sessions := setSessionList
            (setSessionList (getOrCreate ctx w).2.sessions (getSessionId ctx)
              (toolResultBody env ev ctx (getOrCreate ctx w).1).1)
            (getSessionId ctx)
            (triggerIteration (toolResultBody env ev ctx (getOrCreate ctx w).1).1).1 },
       (toolResultBody env ev ctx (getOrCreate ctx w).1).2 ++
         (triggerIteration (toolResultBody env ev ctx (getOrCreate ctx w).1).1).2) := by
  unfold pushStep toolResultHandler fireDeferred
  simp [hb, hp, he, lookupSession_set_self]

/-- A trace with no follow-up message has no sent messages. -/
lemma sentMessages_nil_of (l : List Effect)
    (h : ∀ m, Effect.sendUserMessage m ∉ l) : sentMessages l = [] := by
  induction l with
  | nil => rfl
  | cons e rest ih =>
    cases e
    case sendUserMessage m => exact (h m (List.mem_cons_self _ _)).elim
    all_goals
      simp only [sentMessages, List.filterMap_cons]
      exact ih (fun m hm => h m (List.mem_cons.mpr (Or.inr hm)))

/-- A notification contributes no sent message. -/
lemma sentMessages_notify_cons (a b c : String) (l : List Effect) :
    sentMessages (Effect.notify a b c :: l) = sentMessages l := by
  simp [sentMessages]

/-- A found key is an entry of the table. -/
lemma lookupSession_mem (l : List (String × SessionState)) (k : String)
    (s : SessionState) (h : lookupSession l k = some s) : (k, s) ∈ l := by
  induction l with
  | nil => simp [lookupSession] at h
  | cons kv rest ih =>
    obtain ⟨k1, v⟩ := kv
    by_cases h1 : k1 = k <;> simp_all [lookupSession]

/-- Entries after an overwrite are the written record or old entries. -/
lemma mem_setSessionList {l : List (String × SessionState)} {id : String}
    {s : SessionState} {kv : String × SessionState}
    (h : kv ∈ setSessionList l id s) : kv.2 = s ∨ kv ∈ l := by
  induction l with
  | nil => simp [setSessionList] at h; simp [h]
  | cons kv1 rest ih =>
    obtain ⟨k1, v⟩ := kv1
    by_cases h1 : k1 = id <;> simp_all [setSessionList] <;> rcases h with h | h <;>
      simp_all <;> tauto

/-- Entries after a deletion are old entries. -/
lemma mem_eraseSessionList {l : List (String × SessionState)} {id : String}
    {kv : String × SessionState} (h : kv ∈ eraseSessionList l id) : kv ∈ l := by
  induction l with
  | nil => simp [eraseSessionList] at h
  | cons kv1 rest ih =>
    obtain ⟨k1, v⟩ := kv1
    by_cases h1 : k1 = id <;> simp_all [eraseSessionList] <;> tauto

/-- The global bound the iteration cap maintains: every stored session record
has its counter at or below `MAX_ITERATIONS`. -/
def countBounded (w : World) : Prop :=
  ∀ kv ∈ w.sessions, (kv : String × SessionState).2.iterationCount ≤ MAX_ITERATIONS

/-- `getOrCreate` preserves the bound, and the record it returns obeys it. -/
lemma getOrCreate_bounded (ctx : Ctx) (w : World) (h : countBounded w) :
    countBounded (getOrCreate ctx w).2 ∧
    (getOrCreate ctx w).1.iterationCount ≤ MAX_ITERATIONS := by
  unfold getOrCreate
  cases hl : lookupSession w.sessions (getSessionId ctx) <;> simp only [hl]
  · constructor
    · intro kv hkv
      rcases List.mem_append.mp hkv with h1 | h1
      · exact h kv h1
      · simp at h1
        rw [h1]
        exact Nat.zero_le _
    · exact Nat.zero_le _
  · constructor
    · intro kv hkv
      rcases mem_setSessionList hkv with h1 | h1
      · rw [h1]
        simpa using h _ (lookupSession_mem _ _ _ hl)
      · exact h kv h1
    · simpa using h _ (lookupSession_mem _ _ _ hl)


/-- The push pipeline preserves the counter bound. -/
lemma pushStep_bounded (env : Env) (ev : ToolEvent) (ctx : Ctx) (w : World)
    (h : countBounded w) : countBounded (pushStep env ev ctx w).1 := by
  by_cases hb : ev.toolName = "bash"
  · by_cases hp : (testPush ev.command || testPrCreate ev.command) = true
    · by_cases he : ev.isErr = false
      · rw [pushStep_run env ev ctx w hb hp he]
        intro kv hkv
        rcases mem_setSessionList hkv with h1 | h1
        · rw [h1]
          apply trigger_count_le
          rw [(toolResultBody_keep env ev ctx _).2.1]
          exact (getOrCreate_bounded ctx w h).2
        · rcases mem_setSessionList h1 with h2 | h2
          · rw [h2, (toolResultBody_keep env ev ctx _).2.1]
            exact (getOrCreate_bounded ctx w h).2
          · exact (getOrCreate_bounded ctx w h).1 kv h2
      · rw [pushStep_skip env ev ctx w (Or.inr (Or.inr (by simpa using he)))]
        exact h
    · rw [pushStep_skip env ev ctx w (Or.inr (Or.inl (by simpa using hp)))]
      exact h
  · rw [pushStep_skip env ev ctx w (Or.inl hb)]
    exact h

/-- The command handler preserves the counter bound. -/
lemma prIterateCommand_bounded (env : Env) (args : String) (ctx : Ctx) (w : World)
    (h : countBounded w) : countBounded (prIterateCommand env args ctx w).1 := by
  have hG := getOrCreate_bounded ctx w h
  have hGc := hG.2
  unfold prIterateCommand
  dsimp only
  (repeat' split) <;> intro kv hkv <;>
    rcases mem_setSessionList hkv with h1 | h1 <;>
    first
      | exact hG.1 kv h1
      | (rw [h1]
         first
           | exact Nat.zero_le _
           | exact hGc
           | exact trigger_count_le _ hGc
           | (rw [(showStatus_keep _ _).2.1]; exact hGc)
           | (rw [(update_fields _ _).2.1]; exact hGc))

/-- The poll tick preserves the counter bound. -/
lemma pollTick_bounded (env : Env) (w : World) (h : countBounded w) :
    countBounded (pollTick env w).1 := by
  intro kv hkv
  simp only [pollTick, List.map_map, List.mem_map] at hkv
  obtain ⟨kv0, hkv0, rfl⟩ := hkv
  simpa [(update_fields env kv0.2).2.1] using h kv0 hkv0

/-- Session shutdown preserves the counter bound. -/
lemma sessionShutdown_bounded (ctx : Ctx) (w : World) (h : countBounded w) :
    countBounded (sessionShutdown ctx w) := by
  intro kv hkv
  exact h kv (mem_eraseSessionList hkv)


/-- Counterexample to claim C1 as universally stated: a session that reached
the cap but currently has neither a detected nor a pinned PR (for example
after a branch switch cleared the snapshot).  A successful `git push` then
emits no message, but also does NOT force `autoIterate` off and does not
notify: the no-PR guard of `triggerIteration` returns before the cap check. -/
theorem C1_counterexample :
    (lookupSession (pushStep envEmpty ⟨"bash", "git push", [], false⟩ ctxA
        ⟨[("A", ⟨some "main", none, none, none, true, 10, ctxA⟩)], true⟩).1.sessions
        "A").map SessionState.autoIterate = some true ∧
    (pushStep envEmpty ⟨"bash", "git push", [], false⟩ ctxA
        ⟨[("A", ⟨some "main", none, none, none, true, 10, ctxA⟩)], true⟩).2 = [] := by
  constructor
  · decide
  · decide

/-- Claim C1 as amended: on a successful push-like command against a session
at the iteration cap with auto-iteration on — provided a PR is still detected
or pinned, which the no-PR guard otherwise checks first — the deferred trigger
emits no follow-up instruction message, notifies the user with the
max-iterations warning, and forces `autoIterate` off while leaving the counter
at `MAX_ITERATIONS`.  Moreover the counter can never exceed `MAX_ITERATIONS`:
the trigger preserves the bound, and every world-level step (push pipeline,
command handler, poll tick, session shutdown) preserves it for every stored
session. -/
theorem C1_iteration_cap_amended :
    (∀ (env : Env) (ev : ToolEvent) (ctx : Ctx) (w : World),
      ev.toolName = "bash" →
      (testPush ev.command || testPrCreate ev.command) = true →
      ev.isErr = false →
      (getOrCreate ctx w).1.autoIterate = true →
      (getOrCreate ctx w).1.iterationCount = MAX_ITERATIONS →
      ((getOrCreate ctx w).1.lastPr ≠ none ∨ (getOrCreate ctx w).1.pinnedPr ≠ none) →
      sentMessages (pushStep env ev ctx w).2 = [] ∧
      (∃ sid, Effect.notify sid
          s!"PR iterate: max iterations ({MAX_ITERATIONS}) reached — disabling" "warning"
        ∈ (pushStep env ev ctx w).2) ∧
      (∃ s1, lookupSession (pushStep env ev ctx w).1.sessions (getSessionId ctx) =
          some s1 ∧ s1.autoIterate = false ∧ s1.iterationCount = MAX_ITERATIONS)) ∧
    (∀ s : SessionState, s.iterationCount ≤ MAX_ITERATIONS →
      (triggerIteration s).1.iterationCount ≤ MAX_ITERATIONS) ∧
    (∀ (env : Env) (ev : ToolEvent) (ctx : Ctx) (w : World),
      countBounded w → countBounded (pushStep env ev ctx w).1) ∧
    (∀ (env : Env) (args : String) (ctx : Ctx) (w : World),
      countBounded w → countBounded (prIterateCommand env args ctx w).1) ∧
    (∀ (env : Env) (w : World), countBounded w → countBounded (pollTick env w).1) ∧
    (∀ (ctx : Ctx) (w : World), countBounded w → countBounded (sessionShutdown ctx w)) := by
  refine ⟨?_, trigger_count_le, pushStep_bounded, prIterateCommand_bounded,
    pollTick_bounded, sessionShutdown_bounded⟩
  intro env ev ctx w hb hp he hauto hcap hpr
  rw [pushStep_run env ev ctx w hb hp he]
  have hk := toolResultBody_keep env ev ctx (getOrCreate ctx w).1
  have hauto2 : (toolResultBody env ev ctx (getOrCreate ctx w).1).1.autoIterate = true := by
    rw [hk.1]; exact hauto
  have hcap2 : (toolResultBody env ev ctx (getOrCreate ctx w).1).1.iterationCount ≥
      MAX_ITERATIONS := by
    rw [hk.2.1, hcap]
  have hpr2 : (toolResultBody env ev ctx (getOrCreate ctx w).1).1.lastPr ≠ none ∨
      (toolResultBody env ev ctx (getOrCreate ctx w).1).1.pinnedPr ≠ none := by
    by_contra hc
    push_neg at hc
    rcases hpr with hx | hx
    · exact hx (hk.2.2.2.1 hc.1)
    · exact hx (hk.2.2.2.2.1 hc.2)
  have hcapT := trigger_cap _ hauto2 hpr2 hcap2
  rw [hcapT]
  dsimp only
  refine ⟨?_, ?_, ?_⟩
  · rw [sentMessages_append, sentMessages_nil_of _ hk.2.2.2.2.2.1,
      sentMessages_notify_cons, sentMessages_refresh]
    rfl
  · exact ⟨getSessionId (toolResultBody env ev ctx (getOrCreate ctx w).1).1.ctx,
      List.mem_append.mpr (Or.inr (List.mem_cons_self _ _))⟩
  · refine ⟨_, lookupSession_set_self _ _ _, rfl, ?_⟩
    show (toolResultBody env ev ctx (getOrCreate ctx w).1).1.iterationCount = MAX_ITERATIONS
    rw [hk.2.1]
    exact hcap

/-- Witness for the amended C1 at a concrete capped session with an open PR. -/
theorem C1_witness :
    sentMessages (pushStep envEmpty ⟨"bash", "git push", [], false⟩ ctxW
      ⟨[("W", ⟨some "main", some prOpen, none, none, true, 10, ctxW⟩)], true⟩).2 = [] ∧
    (∃ sid, Effect.notify sid
        s!"PR iterate: max iterations ({MAX_ITERATIONS}) reached — disabling" "warning"
      ∈ (pushStep envEmpty ⟨"bash", "git push", [], false⟩ ctxW
        ⟨[("W", ⟨some "main", some prOpen, none, none, true, 10, ctxW⟩)], true⟩).2) ∧
    (∃ s1, lookupSession (pushStep envEmpty ⟨"bash", "git push", [], false⟩ ctxW
        ⟨[("W", ⟨some "main", some prOpen, none, none, true, 10, ctxW⟩)], true⟩).1.sessions
        (getSessionId ctxW) = some s1 ∧ s1.autoIterate = false ∧
      s1.iterationCount = MAX_ITERATIONS) :=
  C1_iteration_cap_amended.1 envEmpty ⟨"bash", "git push", [], false⟩ ctxW
    ⟨[("W", ⟨some "main", some prOpen, none, none, true, 10, ctxW⟩)], true⟩
    rfl (by decide) rfl (by decide) (by decide) (Or.inl (by decide))


/-- Claim C2 names a liveness check the deferred trigger does not perform:
the `setTimeout` closure holds the session record itself, and
`triggerIteration` consults only that record, never the session table.  At
the concrete input below, the session is shut down (table emptied) before the
deferred callback fires, yet the callback still sends the full iteration
follow-up message and still renders a status for the dead session, instead of
observing the shutdown and doing nothing. -/
theorem C2_shutdown_race :
    (sessionShutdown ctxW ⟨[("W", sessW)], true⟩).sessions = [] ∧
    sentMessages (fireDeferred (sessionShutdown ctxW ⟨[("W", sessW)], true⟩) "W" sessW).2 =
      [buildIterationMessage 1 MAX_ITERATIONS] ∧
    (fireDeferred (sessionShutdown ctxW ⟨[("W", sessW)], true⟩) "W" sessW).2 ≠ [] ∧
    (fireDeferred (sessionShutdown ctxW ⟨[("W", sessW)], true⟩) "W" sessW).1.sessions = [] := by
  have hsd : sessionShutdown ctxW ⟨[("W", sessW)], true⟩ = ⟨[], false⟩ := by decide
  have hfd : fireDeferred (⟨[], false⟩ : World) "W" sessW =
      ((⟨[], false⟩ : World), (triggerIteration sessW).2) := by
    unfold fireDeferred
    simp [lookupSession]
  have hfire := trigger_fire sessW rfl (Or.inl (by decide)) (by decide)
  refine ⟨by decide, ?_, ?_, ?_⟩
  · rw [hsd, hfd, hfire, sentMessages_append, sentMessages_refresh]
    rfl
  · rw [hsd, hfd, hfire]
    simp
  · rw [hsd, hfd]

/-- Claim C8: running any `pr-iterate` sub-command, or any push-triggered
update (handler plus deferred trigger), against one session leaves the stored
record of every other session id unchanged in the table. -/
theorem C8_cross_session_isolation :
    (∀ (env : Env) (args : String) (ctx : Ctx) (w : World) (k : String),
      k ≠ getSessionId ctx →
      lookupSession (prIterateCommand env args ctx w).1.sessions k =
        lookupSession w.sessions k) ∧
    (∀ (env : Env) (ev : ToolEvent) (ctx : Ctx) (w : World) (k : String),
      k ≠ getSessionId ctx →
      lookupSession (pushStep env ev ctx w).1.sessions k =
        lookupSession w.sessions k) := by
  constructor
  · intro env args ctx w k hk
    have hset : ∀ l s, lookupSession (setSessionList l (getSessionId ctx) s) k =
        lookupSession l k := fun l s => lookupSession_set_ne l (getSessionId ctx) k s hk
    have hgo : lookupSession (getOrCreate ctx w).2.sessions k = lookupSession w.sessions k :=
      getOrCreate_frame ctx w k hk
    unfold prIterateCommand
    dsimp only
    (repeat' split) <;> simp [hset, hgo]
  · intro env ev ctx w k hk
    by_cases hb : ev.toolName = "bash"
    · by_cases hp : (testPush ev.command || testPrCreate ev.command) = true
      · by_cases he : ev.isErr = false
        · rw [pushStep_run env ev ctx w hb hp he]
          dsimp only
          rw [lookupSession_set_ne _ _ _ _ hk, lookupSession_set_ne _ _ _ _ hk,
            getOrCreate_frame ctx w k hk]
        · rw [pushStep_skip env ev ctx w (Or.inr (Or.inr (by simpa using he)))]
      · rw [pushStep_skip env ev ctx w (Or.inr (Or.inl (by simpa using hp)))]
    · rw [pushStep_skip env ev ctx w (Or.inl hb)]

/-- A second fixture session for isolation witnesses. -/
def sessB : SessionState := ⟨some "other", none, none, none, false, 3, ⟨some "B", "/b"⟩⟩

/-- Witness for C8: a command and a push against session A leave session B
untouched. -/
theorem C8_witness :
    lookupSession (prIterateCommand envEmpty "on" ctxA
        ⟨[("A", ⟨none, none, none, none, true, 0, ctxA⟩), ("B", sessB)], true⟩).1.sessions
      "B" =
      lookupSession [("A", (⟨none, none, none, none, true, 0, ctxA⟩ : SessionState)),
        ("B", sessB)] "B" ∧
    lookupSession (pushStep envEmpty ⟨"bash", "git push", [], false⟩ ctxA
        ⟨[("A", ⟨none, none, none, none, true, 0, ctxA⟩), ("B", sessB)], true⟩).1.sessions
      "B" =
      lookupSession [("A", (⟨none, none, none, none, true, 0, ctxA⟩ : SessionState)),
        ("B", sessB)] "B" :=
  ⟨C8_cross_session_isolation.1 envEmpty "on" ctxA
      ⟨[("A", ⟨none, none, none, none, true, 0, ctxA⟩), ("B", sessB)], true⟩ "B" (by decide),
   C8_cross_session_isolation.2 envEmpty ⟨"bash", "git push", [], false⟩ ctxA
      ⟨[("A", ⟨none, none, none, none, true, 0, ctxA⟩), ("B", sessB)], true⟩ "B" (by decide)⟩


/-- A fixture environment whose branch query returns `dev` and whose PR
queries succeed with `prOpen`. -/
def envHit : Env :=
  { getBranch := fun _ => some "dev", getRepoInfo := fun _ => some ⟨"o", "r"⟩,
    getPrForBranch := fun _ _ => some prOpen, getPrByNumber := fun _ _ => some prOpen,
    home := "" }

/-- A fixture environment on branch `dev` whose PR queries all fail. -/
def envMiss : Env :=
  { getBranch := fun _ => some "dev", getRepoInfo := fun _ => some ⟨"o", "r"⟩,
    getPrForBranch := fun _ _ => none, getPrByNumber := fun _ _ => none, home := "" }

/-- Witness for C3: a session last seen on `main` polled while on `dev`. -/
theorem C3_witness :
    if usableBranch (envHit.getBranch
        (SessionState.mk (some "main") (some prOpen) (some ⟨"o", "r"⟩) none true 0 ctxA).ctx.cwd) then
      update envHit ⟨some "main", some prOpen, some ⟨"o", "r"⟩, none, true, 0, ctxA⟩ =
        ({ (⟨some "main", some prOpen, some ⟨"o", "r"⟩, none, true, 0, ctxA⟩ : SessionState) with
            lastBranch := envHit.getBranch "/a",
            cachedRepo := envHit.getRepoInfo "/a",
            lastPr := envHit.getPrForBranch "/a" (envHit.getRepoInfo "/a") },
         [Effect.qGetBranch "/a",
          Effect.setStatus (getSessionId ctxA) STATUS_KEY none,
          Effect.qGetRepoInfo "/a",
          Effect.qGetPrForBranch "/a",
          Effect.setStatus (getSessionId ctxA) STATUS_KEY
            ((envHit.getPrForBranch "/a" (envHit.getRepoInfo "/a")).map
              (fun p => formatStatus p
                (iterateLabel ⟨some "main", some prOpen, some ⟨"o", "r"⟩, none, true, 0, ctxA⟩)))])
    else
      update envHit ⟨some "main", some prOpen, some ⟨"o", "r"⟩, none, true, 0, ctxA⟩ =
        ({ (⟨some "main", some prOpen, some ⟨"o", "r"⟩, none, true, 0, ctxA⟩ : SessionState) with
            lastBranch := envHit.getBranch "/a", cachedRepo := none, lastPr := none },
         [Effect.qGetBranch "/a",
          Effect.setStatus (getSessionId ctxA) STATUS_KEY none,
          Effect.setStatus (getSessionId ctxA) STATUS_KEY none]) :=
  C3_branch_change_clears envHit
    ⟨some "main", some prOpen, some ⟨"o", "r"⟩, none, true, 0, ctxA⟩ rfl (by decide)

/-- Witness for C4: a snapshot obtained on tick one is retained when the
query fails on tick two of the same branch. -/
theorem C4_witness :
    lastSetStatus (update envMiss
        (update envHit ⟨some "dev", none, some ⟨"o", "r"⟩, none, true, 0, ctxA⟩).1).2 =
      lastSetStatus (update envHit ⟨some "dev", none, some ⟨"o", "r"⟩, none, true, 0, ctxA⟩).2 ∧
    lastSetStatus (update envMiss
        (update envHit ⟨some "dev", none, some ⟨"o", "r"⟩, none, true, 0, ctxA⟩).1).2 =
      some (some (formatStatus prOpen
        (iterateLabel ⟨some "dev", none, some ⟨"o", "r"⟩, none, true, 0, ctxA⟩))) ∧
    (update envMiss
        (update envHit ⟨some "dev", none, some ⟨"o", "r"⟩, none, true, 0, ctxA⟩).1).1.lastPr =
      some prOpen :=
  C4_transient_failure_masking envHit envMiss
    ⟨some "dev", none, some ⟨"o", "r"⟩, none, true, 0, ctxA⟩ "dev" prOpen
    rfl rfl (by decide) (by decide) rfl (by decide)

/-- Witness for C5: a pinned session whose branch acquires its own open PR. -/
theorem C5_witness :
    (update envHit ⟨some "dev", none, some ⟨"o", "r"⟩, some ⟨"o/r", 7⟩, true, 0, ctxA⟩).1.pinnedPr =
      none ∧
    (update envHit ⟨some "dev", none, some ⟨"o", "r"⟩, some ⟨"o/r", 7⟩, true, 0, ctxA⟩).1.lastPr =
      some prOpen ∧
    (update envHit ⟨some "dev", none, some ⟨"o", "r"⟩, some ⟨"o/r", 7⟩, true, 0, ctxA⟩).2 =
      [Effect.qGetPrByNumber "o/r" 7,
       Effect.setStatus (getSessionId ctxA) STATUS_KEY
         (some (formatStatus prOpen
           (iterateLabel ⟨some "dev", none, some ⟨"o", "r"⟩, some ⟨"o/r", 7⟩, true, 0, ctxA⟩))),
       Effect.qGetBranch "/a"] ++
      (repoResolve envHit "/a" (some ⟨"o", "r"⟩)).2 ++
      [Effect.qGetPrForBranch "/a",
       Effect.setStatus (getSessionId ctxA) STATUS_KEY
         (some (formatStatus prOpen
           (iterateLabel ⟨some "dev", none, some ⟨"o", "r"⟩, some ⟨"o/r", 7⟩, true, 0, ctxA⟩)))] :=
  C5_pin_precedence envHit
    ⟨some "dev", none, some ⟨"o", "r"⟩, some ⟨"o/r", 7⟩, true, 0, ctxA⟩
    ⟨"o/r", 7⟩ prOpen prOpen "dev" rfl rfl rfl (by decide) rfl rfl

/-- Witness for the amended C7 at a concrete session with an open PR and a
fresh counter. -/
theorem C7_witness :
    sentMessages (prIterateCommand envEmpty "run" ctxW ⟨[("W", sessW)], true⟩).2 =
      [buildIterationMessage
        ((getOrCreate ctxW ⟨[("W", sessW)], true⟩).1.iterationCount + 1) MAX_ITERATIONS] ∧
    ∃ s1, lookupSession (prIterateCommand envEmpty "run" ctxW
        ⟨[("W", sessW)], true⟩).1.sessions (getSessionId ctxW) = some s1 ∧
      s1.autoIterate = (getOrCreate ctxW ⟨[("W", sessW)], true⟩).1.autoIterate ∧
      s1.iterationCount = (getOrCreate ctxW ⟨[("W", sessW)], true⟩).1.iterationCount + 1 :=
  C7_run_amended envEmpty "run" ctxW ⟨[("W", sessW)], true⟩
    (by decide) (Or.inl (by decide)) (by decide)

end PrIterate
